import Mathlib

/-!
Shallow embedding of the settlemint/shared-actions repository
(GitHub Actions scripts for PR label/reaction/auto-merge management),
together with theorems checking the natural-language specification
against the code.

Embedding conventions:
* PR labels are modelled as lists of label names (`List String`);
  GitHub guarantees label names are unique on an issue, which appears
  as `Nodup` hypotheses where needed.
* The GitHub API calls a function issues are recorded in a trace
  (`List ApiCall`); a successful remove of label `l` is modelled as
  filtering out `l` from the label list, a successful add as appending.
* Fallible API results are modelled with `Except String`, the
  thrown error message being the payload.
-/

namespace SharedActions

/-- A GitHub label-API call issued by a labeler run: the single read of the
current labels of the PR, a `removeLabel` write, or an `addLabels` write.
(From `build-status-labeler.js` / `pr-status-labeler.js` call sites.) -/
inductive ApiCall where
  | read : ApiCall
  | removeLabel : String → ApiCall
  | addLabels : List String → ApiCall
deriving DecidableEq, Repr

/-- `QA_LABEL_NAMES` from `build-status-labeler.js` (lines 25-44): names of
the four QA labels, in source order. -/
def QA_LABEL_NAMES : List String :=
  ["qa:pending", "qa:running", "qa:success", "qa:failed"]

/-- `STATUS_LABEL_NAMES` from `pr-status-labeler.js` (lines 25-58): names of
the six status labels, in source order. -/
def STATUS_LABEL_NAMES : List String :=
  ["status:draft", "status:ready-for-review", "status:approved",
   "status:mergeable", "status:merged", "status:abandoned"]

/-- The `switch (workflowStatus)` of `updateBuildStatusLabel`
(`build-status-labeler.js` lines 113-129): maps a workflow status to the
desired QA label; `none` models the empty `desiredLabel` left by an
unrecognized status. -/
def desiredQaLabel (workflowStatus : String) : Option String :=
  if workflowStatus == "pending" then some "qa:pending"
  else if workflowStatus == "running" then some "qa:running"
  else if workflowStatus == "success" then some "qa:success"
  else if workflowStatus == "failure" || workflowStatus == "cancelled" then some "qa:failed"
  else none

/-- The status-label priority chain of `updatePRStatusLabel`
(`pr-status-labeler.js` lines 154-169). -/
def prDesiredLabel (isMerged isAbandoned isDraft hasApproval : Bool)
    (qaStatus : String) : String :=
  if isMerged then "status:merged"
  else if isAbandoned then "status:abandoned"
  else if isDraft then "status:draft"
  else if hasApproval && qaStatus == "success" then "status:mergeable"
  else if hasApproval then "status:approved"
  else "status:ready-for-review"

/-- Sequentially remove each label in `ls` from the PR label list `s`:
the `for (const label of labelsToRemove)` loops of both labelers, where
every `removeLabel` API call succeeds. -/
def removeEach (ls : List String) (s : List String) : List String :=
  ls.foldl (fun acc l => acc.filter (fun x => x != l)) s

/-- The common reconciliation body shared verbatim by
`updateBuildStatusLabel` (`build-status-labeler.js` lines 140-201) and
`updatePRStatusLabel` (`pr-status-labeler.js` lines 173-234): read the PR
labels, early-return if the labels of the group are exactly `[desiredLabel]`,
otherwise remove every group label other than the desired one and add the
desired one if absent.  Returns the trace of API calls together with the
resulting PR label list (all writes assumed to succeed). -/
def reconcileGroup (desiredLabel : String) (groupNames : List String)
    (current : List String) : List ApiCall × List String :=
  let currentGroup := current.filter (fun l => groupNames.contains l)
  if currentGroup == [desiredLabel] then
    ([ApiCall.read], current)
  else
    let labelsToRemove := currentGroup.filter (fun l => l != desiredLabel)
    let needsToAdd := !currentGroup.contains desiredLabel
    let afterRemove := removeEach labelsToRemove current
    (ApiCall.read ::
       (labelsToRemove.map ApiCall.removeLabel ++
        if needsToAdd then [ApiCall.addLabels [desiredLabel]] else []),
     if needsToAdd then afterRemove ++ [desiredLabel] else afterRemove)

/-- `updateBuildStatusLabel` (`build-status-labeler.js` lines 107-201) as a
function from the workflow status and the current labels of the PR to the API
trace and resulting labels.  An unrecognized status returns before the
label read (empty trace). -/
def updateBuildStatusLabel (workflowStatus : String)
    (current : List String) : List ApiCall × List String :=
  match desiredQaLabel workflowStatus with
  | none => ([], current)
  | some d => reconcileGroup d QA_LABEL_NAMES current

/-- `updatePRStatusLabel` (`pr-status-labeler.js` lines 135-235) as a
function from the PR state flags and current labels to the API trace and
resulting labels. -/
def updatePRStatusLabel (isMerged isAbandoned isDraft hasApproval : Bool)
    (qaStatus : String) (current : List String) :
    List ApiCall × List String :=
  reconcileGroup (prDesiredLabel isMerged isAbandoned isDraft hasApproval qaStatus)
    STATUS_LABEL_NAMES current

/-- A PR review as consumed by `checkApproval` (`pr-review-checker.js`):
its `state` and the `user.login` of its author. -/
structure Review where
  state : String
  userLogin : String
deriving DecidableEq, Repr

/-- `checkApproval` (`pr-review-checker.js` lines 32-64): the PR has
approval iff the list of reviews with state `"APPROVED"` and author other
than the PR author is non-empty. -/
def checkApproval (prAuthor : String) (reviews : List Review) : Bool :=
  decide (0 <
    (reviews.filter
      (fun review => review.state == "APPROVED" && review.userLogin != prAuthor)).length)

/-- The `pull_request_review` branch of `determineQAStatus`
(`pr-review-checker.js` lines 91-121): read the QA status back from the
current labels of the PR, with precedence success, failed, running, pending,
defaulting to `"pending"` when no QA label is present. -/
def determineQAStatusReview (labels : List String) : String :=
  if labels.contains "qa:success" then "success"
  else if labels.contains "qa:failed" then "failed"
  else if labels.contains "qa:running" then "running"
  else if labels.contains "qa:pending" then "pending"
  else "pending"

/-- The `pull_request` branch of `determineQAStatus`
(`pr-review-checker.js` lines 122-152): derive the QA status from the QA
job outcome; an absent `qaResult` (JS falsy) is modelled as `""`. -/
def determineQAStatusPR (qaResult : String) : String :=
  if qaResult == "success" then "success"
  else if qaResult == "failure" || qaResult == "cancelled" then "failed"
  else if qaResult == "skipped" || qaResult == "" then "pending"
  else "failed"

/-- The `statusReactions` table of `manageReactionsEfficiently`
(`build-status-labeler.js` lines 959-968): label name → Slack emoji name;
`status:merged` is intentionally unmapped. -/
def statusReactionFor (label : String) : Option String :=
  if label == "qa:pending" then some "hourglass_flowing_sand"
  else if label == "qa:running" then some "runner"
  else if label == "qa:success" then some "white_check_mark"
  else if label == "qa:failed" then some "x"
  else if label == "status:ready-for-review" then some "eyes"
  else if label == "status:approved" then some "thumbsup"
  else if label == "status:mergeable" then some "rocket"
  else none

/-- `exclusiveGroups.qa` (`build-status-labeler.js` line 972). -/
def qaGroupReactions : List String :=
  ["hourglass_flowing_sand", "runner", "white_check_mark", "x"]

/-- `exclusiveGroups.status` (`build-status-labeler.js` line 973). -/
def statusGroupReactions : List String :=
  ["eyes", "thumbsup", "rocket"]

/-- `groupPriority.qa` (`build-status-labeler.js` line 1131). -/
def qaPriorityLabels : List String :=
  ["qa:failed", "qa:success", "qa:running", "qa:pending"]

/-- `groupPriority.status` (`build-status-labeler.js` lines 1132-1137). -/
def statusPriorityLabels : List String :=
  ["status:merged", "status:mergeable", "status:approved",
   "status:ready-for-review"]

/-- The per-group selection loop of `calculateDesiredReactions`
(`build-status-labeler.js` lines 1144-1157): walk the priority
order and pick the mapped reaction of the first priority label that is
present on the PR and has an entry in the reaction table. -/
def groupPick (labels : List String) : List String → Option String
  | [] => none
  | p :: rest =>
    if labels.contains p && (statusReactionFor p).isSome then statusReactionFor p
    else groupPick labels rest

/-- The `if (selectedReaction && mappedReactions.includes(selectedReaction))`
push of `calculateDesiredReactions` (`build-status-labeler.js`
lines 1159-1161). -/
def pickIfMapped : Option String → List String → List String
  | some r, mapped => if mapped.contains r then [r] else []
  | none, _ => []

/-- `calculateDesiredReactions` (`build-status-labeler.js`
lines 1101-1174), with `labels` the label names on the PR and the fixed
`statusReactions`/`exclusiveGroups` tables inlined (the only values the
caller ever passes). -/
def calculateDesiredReactions (labels : List String) (isPRMerged : Bool) :
    List String :=
  if labels.contains "status:merged" || isPRMerged then []
  else
    let mappedReactions := labels.filterMap statusReactionFor
    let finalReactions :=
      pickIfMapped (groupPick labels qaPriorityLabels) mappedReactions ++
      pickIfMapped (groupPick labels statusPriorityLabels) mappedReactions
    if labels.any (fun l => l == "qa:running" || l == "qa:pending") then
      finalReactions.filter (fun r => qaGroupReactions.contains r)
    else finalReactions

/-- `leadsWith p l` is true iff the character list `l` starts with `p`. -/
def leadsWith : List Char → List Char → Bool
  | [], _ => true
  | _ :: _, [] => false
  | a :: as, b :: bs => a == b && leadsWith as bs

/-- `occursIn needle hay` is true iff `needle` occurs contiguously inside
`hay`: the semantics of JavaScript `String.prototype.includes`. -/
def occursIn (needle : List Char) : List Char → Bool
  | [] => needle.isEmpty
  | c :: rest => leadsWith needle (c :: rest) || occursIn needle rest

/-- JavaScript `s.includes(pat)` on strings. -/
def strIncludes (s pat : String) : Bool :=
  occursIn pat.toList s.toList

/-- `stripLead p l` returns `l` without its leading segment `p`, or `none`
if `l` does not start with `p`. -/
def stripLead : List Char → List Char → Option (List Char)
  | [], cs => some cs
  | _ :: _, [] => none
  | a :: as, b :: bs => if a == b then stripLead as bs else none

/-- JavaScript regex line terminators, which `.` never matches:
U+000A, U+000D, U+2028, U+2029. -/
def isLineTerm (c : Char) : Bool :=
  c == '\n' || c == '\r' || c == Char.ofNat 0x2028 || c == Char.ofNat 0x2029

/-- Whether `\(.+\)` followed by `after` matches somewhere from the current
position: either this character is the closing `)` followed by `after`, or
it is a (non-line-terminator) character consumed by `.+` and the close
comes later.  Backtracking semantics: true iff some split works. -/
def closeSeek (after : List Char) : List Char → Bool
  | [] => false
  | c :: rest =>
    (c == ')' && leadsWith after rest) || (!isLineTerm c && closeSeek after rest)

/-- Whether `.+\)` followed by `after` matches the characters after an
opening `(`: at least one `.`-matched character, then `closeSeek`. -/
def parenGroup (after : List Char) : List Char → Bool
  | [] => false
  | c :: rest => !isLineTerm c && closeSeek after rest

/-- Whether `(\(.+\))?` followed by the literal characters `after`
(`":"` for the type regex, `"!:"` for the breaking regex) matches at the
start of `rest`, the part of the title after the type keyword. -/
def typeTail (after : List Char) (rest : List Char) : Bool :=
  leadsWith after rest ||
    (match rest with
     | '(' :: r => parenGroup after r
     | _ => false)

/-- The alternation of the type/breaking regexes of
`analyzePRAndApplyLabels` (`part_000` lines 170-171 and 187-189), in
source order. -/
def typeKeywords : List String :=
  ["feat", "fix", "docs", "style", "refactor", "perf", "test", "build",
   "ci", "revert"]

/-- `prTitle.match(/^(feat|fix|docs|style|refactor|perf|test|build|ci|revert)(\(.+\))?:/)`
from `analyzePRAndApplyLabels` (`part_000` lines 170-172): the captured
type keyword, or `none` when the regex does not match. -/
def typeMatch (prTitle : String) : Option String :=
  typeKeywords.find? (fun t =>
    match stripLead t.toList prTitle.toList with
    | some rest => typeTail [':'] rest
    | none => false)

/-- `prTitle.match(/^(feat|...|revert)(\(.+\))?!:/)` from
`analyzePRAndApplyLabels` (`part_000` lines 187-189): whether the
conventional-commit prefix carries a trailing `!` before the colon. -/
def breakingTitleMatch (prTitle : String) : Bool :=
  typeKeywords.any (fun t =>
    match stripLead t.toList prTitle.toList with
    | some rest => typeTail ['!', ':'] rest
    | none => false)

/-- `prTitle.match(/^(chore|fix|build)\(deps\):/)` from
`analyzePRAndApplyLabels` (`part_000` line 165). -/
def depsMatch (prTitle : String) : Bool :=
  ["chore", "fix", "build"].any (fun t =>
    (stripLead (t.toList ++ "(deps):".toList) prTitle.toList).isSome)

/-- The `labelsToAdd` list computed by `analyzePRAndApplyLabels`
(`part_000` lines 162-209): dependency label first (short-circuits type
detection), else the matched type keyword, else `chore`; then `breaking`
when the title prefix has a trailing `!` or the body contains
`BREAKING CHANGE:`; finally the draft-vs-ready status label. -/
def analyzePRLabels (prTitle prBody : String) (draft : Bool) : List String :=
  let base :=
    if depsMatch prTitle then ["dependencies"]
    else
      match typeMatch prTitle with
      | some t => [t]
      | none => ["chore"]
  let withBreaking :=
    if breakingTitleMatch prTitle || strIncludes prBody "BREAKING CHANGE:" then
      base ++ ["breaking"]
    else base
  withBreaking ++ [if draft then "status:draft" else "status:ready-for-review"]

/-- How `manageAutoMerge` resolves: every constructor is a normal return
(a log line), never a raised error. -/
inductive AutoMergeOutcome where
  | skippedBot : AutoMergeOutcome
  | notMergeable : AutoMergeOutcome
  | enabled : AutoMergeOutcome
  | caughtAlreadyDisabled : AutoMergeOutcome
  | caughtAlreadyEnabled : AutoMergeOutcome
  | caughtNotAllowed : AutoMergeOutcome
  | caughtCleanStatus : AutoMergeOutcome
  | caughtDirtyStatus : AutoMergeOutcome
  | caughtOther : String → AutoMergeOutcome
deriving DecidableEq, Repr

/-- The `catch` handler of `manageAutoMerge` (`auto-merge-manager.js`
lines 123-141): pattern-match the error message against the known
non-fatal substrings, in source order; every branch returns normally. -/
def classifyAutoMergeError (msg : String) : AutoMergeOutcome :=
  if strIncludes msg "Auto-merge is not enabled" then .caughtAlreadyDisabled
  else if strIncludes msg "already enabled" then .caughtAlreadyEnabled
  else if strIncludes msg "Auto-merge is not allowed" then .caughtNotAllowed
  else if strIncludes msg "Pull request is in clean status" then .caughtCleanStatus
  else if strIncludes msg "Pull request is in dirty status" then .caughtDirtyStatus
  else .caughtOther msg

/-- `manageAutoMerge` (`auto-merge-manager.js` lines 37-142).
`fetchPR` and `enableMutation` model the two fallible API calls inside the
`try` block (`github.rest.pulls.get` and the enable-auto-merge GraphQL
mutation), each either succeeding or throwing an error message.  The
result is `Except.error` exactly when the function would raise. -/
def manageAutoMerge (prAuthorType : String) (hasApproval : Bool)
    (qaStatus : String) (isDraft : Bool)
    (fetchPR enableMutation : Except String Unit) :
    Except String AutoMergeOutcome :=
  if prAuthorType == "Bot" then .ok .skippedBot
  else
    let isMergeable := hasApproval && qaStatus == "success" && !isDraft
    if isMergeable then
      match fetchPR with
      | .error msg => .ok (classifyAutoMergeError msg)
      | .ok _ =>
        match enableMutation with
        | .error msg => .ok (classifyAutoMergeError msg)
        | .ok _ => .ok .enabled
    else .ok .notMergeable

/-! ### Helper lemmas about the shared label-reconciliation body -/

/-- Removing each label of `ls` in turn filters out exactly the members
of `ls`. -/
theorem removeEach_eq_filter (ls s : List String) :
    removeEach ls s = s.filter (fun x => !ls.contains x) := by
  induction ls generalizing s with
  | nil => simp [removeEach]
  | cons l t ih =>
    simp only [removeEach, List.foldl_cons] at *
    rw [ih, List.filter_filter]
    refine List.filter_congr ?_
    intro x _
    rw [List.contains_cons]
    cases hxl : x == l <;> cases hxc : t.contains x <;>
      simp [hxl, hxc, bne]

/-- Unfolding equation for `reconcileGroup` with the intermediate
`let`-bindings inlined. -/
theorem reconcileGroup_eq (d : String) (group current : List String) :
    reconcileGroup d group current =
      if current.filter (fun l => group.contains l) == [d] then
        ([ApiCall.read], current)
      else
        (ApiCall.read ::
           (((current.filter (fun l => group.contains l)).filter
               (fun l => l != d)).map ApiCall.removeLabel ++
            if !(current.filter (fun l => group.contains l)).contains d then
              [ApiCall.addLabels [d]]
            else []),
         if !(current.filter (fun l => group.contains l)).contains d then
           removeEach ((current.filter (fun l => group.contains l)).filter
               (fun l => l != d)) current ++ [d]
         else
           removeEach ((current.filter (fun l => group.contains l)).filter
               (fun l => l != d)) current) := rfl

theorem reconcileGroup_early (d : String) (group s1 : List String)
    (h : s1.filter (fun l => group.contains l) = [d]) :
    reconcileGroup d group s1 = ([ApiCall.read], s1) := by
  rw [reconcileGroup_eq, if_pos (by rw [h]; exact beq_self_eq_true _)]

theorem reconcileGroup_filter_eq (d : String) (group current : List String)
    (hd : group.contains d = true) (hnd : current.Nodup) :
    ((reconcileGroup d group current).2).filter (fun l => group.contains l)
      = [d] := by
  by_cases hcg : current.filter (fun l => group.contains l) = [d]
  · rw [reconcileGroup_early d group current hcg]
    exact hcg
  · have hne : ¬((current.filter (fun l => group.contains l) == [d]) = true) := by
      rw [beq_eq_false_iff_ne.mpr hcg]
      exact Bool.false_ne_true
    have key :
        (current.filter (fun x =>
            !((current.filter (fun l => group.contains l)).filter
                (fun l => l != d)).contains x)).filter
            (fun l => group.contains l)
          = current.filter (fun x => x == d) := by
      rw [List.filter_filter]
      refine List.filter_congr ?_
      intro x hx
      dsimp only
      cases hxd : x == d
      · cases hg : group.contains x
        · rw [Bool.false_and]
        · have hmem : x ∈ current.filter (fun l => group.contains l) :=
            List.mem_filter.mpr ⟨hx, hg⟩
          have hxne : (x != d) = true := by rw [bne, hxd]; rfl
          have hltr :
              ((current.filter (fun l => group.contains l)).filter
                  (fun l => l != d)).contains x = true :=
            List.elem_iff.mpr (List.mem_filter.mpr ⟨hmem, hxne⟩)
          rw [hltr, Bool.not_true, Bool.true_and]
      · have hx_eq : x = d := beq_iff_eq.mp hxd
        rw [hx_eq]
        have hltr :
            ((current.filter (fun l => group.contains l)).filter
                (fun l => l != d)).contains d = false := by
          cases hc :
              ((current.filter (fun l => group.contains l)).filter
                  (fun l => l != d)).contains d
          · rfl
          · exfalso
            have hm := List.mem_filter.mp (List.elem_iff.mp hc)
            have hbad : (d != d) = true := hm.2
            rw [bne_self_eq_false] at hbad
            exact Bool.false_ne_true hbad
        rw [hd, hltr, Bool.not_false, Bool.true_and]
    rw [reconcileGroup_eq, if_neg hne]
    by_cases hmemd : d ∈ current
    · have hcgd :
          (current.filter (fun l => group.contains l)).contains d = true :=
        List.elem_iff.mpr (List.mem_filter.mpr ⟨hmemd, hd⟩)
      have hna : ¬((!(current.filter (fun l => group.contains l)).contains d)
          = true) := by
        rw [hcgd]
        exact Bool.false_ne_true
      dsimp only
      rw [if_neg hna, removeEach_eq_filter, key, List.filter_beq,
        List.count_eq_one_of_mem hnd hmemd]
      rfl
    · have hcgd :
          (current.filter (fun l => group.contains l)).contains d = false := by
        cases hc : (current.filter (fun l => group.contains l)).contains d
        · rfl
        · exact absurd (List.mem_filter.mp (List.elem_iff.mp hc)).1 hmemd
      have hna : (!(current.filter (fun l => group.contains l)).contains d)
          = true := by
        rw [hcgd]
        rfl
      dsimp only
      rw [if_pos hna, List.filter_append, removeEach_eq_filter, key,
        List.filter_beq, List.count_eq_zero.mpr hmemd,
        List.replicate_zero, List.nil_append, List.filter_singleton, hd]
      rfl

/-- Every desired QA label produced by the status switch belongs to the
QA label enumeration. -/
theorem desiredQaLabel_mem (ws d : String) (h : desiredQaLabel ws = some d) :
    QA_LABEL_NAMES.contains d = true := by
  unfold desiredQaLabel at h
  split_ifs at h <;> simp_all [QA_LABEL_NAMES]

/-- Every desired status label produced by the priority chain belongs to
the status label enumeration. -/
theorem prDesiredLabel_mem (m a dr ap : Bool) (qa : String) :
    STATUS_LABEL_NAMES.contains (prDesiredLabel m a dr ap qa) = true := by
  unfold prDesiredLabel
  split_ifs <;> simp [STATUS_LABEL_NAMES]

/-! ### Claim theorems -/

/-- Claim C1: for every input tuple, the desired status label computed by
`updatePRStatusLabel` is the first match of the priority chain
merged → abandoned → draft → (approved ∧ qa success) → approved →
ready-for-review. -/
theorem prStatusLabel_priority_chain (m a d ap : Bool) (qa : String) :
    (m = true → prDesiredLabel m a d ap qa = "status:merged") ∧
    (m = false → a = true → prDesiredLabel m a d ap qa = "status:abandoned") ∧
    (m = false → a = false → d = true →
       prDesiredLabel m a d ap qa = "status:draft") ∧
    (m = false → a = false → d = false → ap = true → qa = "success" →
       prDesiredLabel m a d ap qa = "status:mergeable") ∧
    (m = false → a = false → d = false → ap = true → qa ≠ "success" →
       prDesiredLabel m a d ap qa = "status:approved") ∧
    (m = false → a = false → d = false → ap = false →
       prDesiredLabel m a d ap qa = "status:ready-for-review") := by
  cases m <;> cases a <;> cases d <;> cases ap <;>
    by_cases hq : qa = "success" <;>
    simp_all [prDesiredLabel]

/-- Witness for C1: the spec scenario draft = true, no approval,
qa pending yields `status:draft`. -/
theorem prStatusLabel_priority_chain_witness :
    prDesiredLabel false false true false "pending" = "status:draft" :=
  (prStatusLabel_priority_chain false false true false "pending").2.2.1
    rfl rfl rfl

/-- Claim C2: a run of `updateBuildStatusLabel` with a recognized status
in which every write succeeds leaves exactly the desired QA label from
the QA group on the PR, and likewise `updatePRStatusLabel` leaves exactly
the desired status label from the status group. -/
theorem labelReconciliation_converges :
    (∀ workflowStatus d current,
       desiredQaLabel workflowStatus = some d → current.Nodup →
       ((updateBuildStatusLabel workflowStatus current).2).filter
           (fun l => QA_LABEL_NAMES.contains l) = [d]) ∧
    (∀ isMerged isAbandoned isDraft hasApproval qaStatus current,
       current.Nodup →
       ((updatePRStatusLabel isMerged isAbandoned isDraft hasApproval qaStatus
           current).2).filter (fun l => STATUS_LABEL_NAMES.contains l)
         = [prDesiredLabel isMerged isAbandoned isDraft hasApproval qaStatus]) := by
  constructor
  · intro workflowStatus d current hws hnd
    unfold updateBuildStatusLabel
    rw [hws]
    exact reconcileGroup_filter_eq d QA_LABEL_NAMES current
      (desiredQaLabel_mem workflowStatus d hws) hnd
  · intro isMerged isAbandoned isDraft hasApproval qaStatus current hnd
    exact reconcileGroup_filter_eq _ STATUS_LABEL_NAMES current
      (prDesiredLabel_mem isMerged isAbandoned isDraft hasApproval qaStatus) hnd

/-- Witness for C2: starting from both `qa:running` and `qa:failed`,
desired `success` ends with exactly `qa:success`; starting from
`status:draft` plus `status:approved`, an approved PR with passing QA
ends with exactly `status:mergeable`. -/
theorem labelReconciliation_converges_witness :
    (desiredQaLabel "success" = some "qa:success" ∧
     (["qa:running", "qa:failed", "other"] : List String).Nodup ∧
     ((updateBuildStatusLabel "success"
         ["qa:running", "qa:failed", "other"]).2).filter
         (fun l => QA_LABEL_NAMES.contains l) = ["qa:success"]) ∧
    ((["status:draft", "status:approved"] : List String).Nodup ∧
     ((updatePRStatusLabel false false false true "success"
         ["status:draft", "status:approved"]).2).filter
         (fun l => STATUS_LABEL_NAMES.contains l) = ["status:mergeable"]) :=
  ⟨⟨rfl, by decide,
    labelReconciliation_converges.1 "success" "qa:success"
      ["qa:running", "qa:failed", "other"] rfl (by decide)⟩,
   ⟨by decide,
    labelReconciliation_converges.2 false false false true "success"
      ["status:draft", "status:approved"] (by decide)⟩⟩

/-- Claim C3: label reconciliation is idempotent — after a successful run,
a second run with the same desired status performs only the read of the
labels on the PR (zero `removeLabel` or `addLabels` calls), for both
`updateBuildStatusLabel` and `updatePRStatusLabel`. -/
theorem labelReconciliation_idempotent :
    (∀ workflowStatus d current,
       desiredQaLabel workflowStatus = some d → current.Nodup →
       (updateBuildStatusLabel workflowStatus
          ((updateBuildStatusLabel workflowStatus current).2)).1
         = [ApiCall.read]) ∧
    (∀ isMerged isAbandoned isDraft hasApproval qaStatus current,
       current.Nodup →
       (updatePRStatusLabel isMerged isAbandoned isDraft hasApproval qaStatus
          ((updatePRStatusLabel isMerged isAbandoned isDraft hasApproval
              qaStatus current).2)).1
         = [ApiCall.read]) := by
  constructor
  · intro workflowStatus d current hws hnd
    have hfe := reconcileGroup_filter_eq d QA_LABEL_NAMES current
      (desiredQaLabel_mem workflowStatus d hws) hnd
    simp only [updateBuildStatusLabel, hws] at hfe ⊢
    rw [reconcileGroup_early d QA_LABEL_NAMES _ hfe]
  · intro isMerged isAbandoned isDraft hasApproval qaStatus current hnd
    have hfe := reconcileGroup_filter_eq _ STATUS_LABEL_NAMES current
      (prDesiredLabel_mem isMerged isAbandoned isDraft hasApproval qaStatus) hnd
    unfold updatePRStatusLabel at hfe ⊢
    rw [reconcileGroup_early _ STATUS_LABEL_NAMES _ hfe]

/-- Witness for C3: a second `success` run after converging from
`qa:running` issues only the read, and likewise for the status labeler. -/
theorem labelReconciliation_idempotent_witness :
    (desiredQaLabel "success" = some "qa:success" ∧
     (["qa:running"] : List String).Nodup ∧
     (updateBuildStatusLabel "success"
        ((updateBuildStatusLabel "success" ["qa:running"]).2)).1
       = [ApiCall.read]) ∧
    ((["status:ready-for-review"] : List String).Nodup ∧
     (updatePRStatusLabel false false true false "pending"
        ((updatePRStatusLabel false false true false "pending"
            ["status:ready-for-review"]).2)).1
       = [ApiCall.read]) :=
  ⟨⟨rfl, by decide,
    labelReconciliation_idempotent.1 "success" "qa:success" ["qa:running"]
      rfl (by decide)⟩,
   ⟨by decide,
    labelReconciliation_idempotent.2 false false true false "pending"
      ["status:ready-for-review"] (by decide)⟩⟩

/-- Claim C8: for every workflow status outside the recognized five — in
particular `"failed"`, the value `determineQAStatus` outputs for failed
jobs — `updateBuildStatusLabel` returns before any API call: no read and
no writes. -/
theorem updateBuildStatusLabel_noop_unrecognized :
    (∀ workflowStatus current,
       workflowStatus ∉
         ["pending", "running", "success", "failure", "cancelled"] →
       updateBuildStatusLabel workflowStatus current = ([], current)) ∧
    determineQAStatusPR "failure" = "failed" ∧
    determineQAStatusPR "cancelled" = "failed" := by
  refine ⟨?_, rfl, rfl⟩
  intro workflowStatus current h
  simp only [List.mem_cons, List.not_mem_nil, or_false, not_or] at h
  obtain ⟨h1, h2, h3, h4, h5⟩ := h
  simp [updateBuildStatusLabel, desiredQaLabel, h1, h2, h3, h4, h5]

/-- Witness for C8: the status `"failed"` (as emitted by the resolver for
failed jobs) is unrecognized, so the labeler is a complete no-op. -/
theorem updateBuildStatusLabel_noop_unrecognized_witness :
    ("failed" : String) ∉
        ["pending", "running", "success", "failure", "cancelled"] ∧
    updateBuildStatusLabel "failed" ["qa:running"] = ([], ["qa:running"]) :=
  ⟨by decide,
   updateBuildStatusLabel_noop_unrecognized.1 "failed" ["qa:running"]
     (by decide)⟩

/-- Counterexample for C4: on the title `feat!: new flow` with empty body
the labeler computes `chore` (not `feat`) alongside `breaking` — the type
regex does not accept the trailing `!` before the colon, so the claimed
label set `{feat, breaking}` is wrong. -/
theorem analyzePRLabels_bang_counterexample :
    analyzePRLabels "feat!: new flow" "" false
        = ["chore", "breaking", "status:ready-for-review"] ∧
    "feat" ∉ analyzePRLabels "feat!: new flow" "" false := by
  constructor
  · decide
  · decide

/-- Claim C4 (amended): for the PR title `feat!: new flow` (with any body
not containing `BREAKING CHANGE:`), the conventional-commit labeler
computes the label set `{chore, breaking}` plus the one draft-vs-ready
label: the trailing `!` before the colon triggers the `breaking` label,
but the type regex does not match a title with `!`, so the type label
falls back to `chore` instead of `feat`. -/
theorem analyzePRLabels_bang_title (prBody : String) (draft : Bool)
    (_hb : strIncludes prBody "BREAKING CHANGE:" = false) :
    analyzePRLabels "feat!: new flow" prBody draft
      = ["chore", "breaking",
         if draft then "status:draft" else "status:ready-for-review"] := by
  have hd : depsMatch "feat!: new flow" = false := by decide
  have ht : typeMatch "feat!: new flow" = none := by decide
  have hbt : breakingTitleMatch "feat!: new flow" = true := by decide
  simp [analyzePRLabels, hd, ht, hbt]

/-- Witness for C4 (amended), at the empty body and draft = true. -/
theorem analyzePRLabels_bang_title_witness :
    strIncludes "" "BREAKING CHANGE:" = false ∧
    analyzePRLabels "feat!: new flow" "" true
      = ["chore", "breaking", "status:draft"] :=
  ⟨by decide, by rw [analyzePRLabels_bang_title "" true (by decide)]; rfl⟩

/-- Claim C5: whenever the PR carries a merge indicator — the
`isPRMerged` flag or the `status:merged` label — the desired reaction set
is empty, regardless of the other labels. -/
theorem desiredReactions_empty_of_merged (labels : List String)
    (isPRMerged : Bool)
    (h : isPRMerged = true ∨ "status:merged" ∈ labels) :
    calculateDesiredReactions labels isPRMerged = [] := by
  unfold calculateDesiredReactions
  rcases h with h | h
  · rw [h, Bool.or_true]
    rfl
  · have hc : labels.contains "status:merged" = true := List.elem_iff.mpr h
    rw [hc, Bool.true_or]
    rfl

/-- Witness for C5: a non-merged flag but a `status:merged` label still
yields the empty reaction set. -/
theorem desiredReactions_empty_of_merged_witness :
    (false = true ∨ "status:merged" ∈ ["status:merged", "qa:failed"]) ∧
    calculateDesiredReactions ["status:merged", "qa:failed"] false = [] :=
  ⟨Or.inr (by decide),
   desiredReactions_empty_of_merged ["status:merged", "qa:failed"] false
     (Or.inr (by decide))⟩

/-- Claim C6: for a non-merged label list containing `qa:running` or
`qa:pending`, every desired reaction belongs to the QA exclusivity group,
and none of the status-group emoji (`eyes`, `thumbsup`, `rocket`)
appears, even when status labels are present. -/
theorem desiredReactions_qa_only (labels : List String)
    (hm : "status:merged" ∉ labels)
    (hq : "qa:running" ∈ labels ∨ "qa:pending" ∈ labels) :
    ((calculateDesiredReactions labels false).all
        (fun r => qaGroupReactions.contains r) = true) ∧
    "eyes" ∉ calculateDesiredReactions labels false ∧
    "thumbsup" ∉ calculateDesiredReactions labels false ∧
    "rocket" ∉ calculateDesiredReactions labels false := by
  have hmc : labels.contains "status:merged" = false := by
    cases hc : labels.contains "status:merged"
    · rfl
    · exact absurd (List.elem_iff.mp hc) hm
  have hany :
      labels.any (fun l => l == "qa:running" || l == "qa:pending") = true := by
    rcases hq with h | h
    · exact List.any_eq_true.mpr ⟨_, h, by simp⟩
    · exact List.any_eq_true.mpr ⟨_, h, by simp⟩
  have hres :
      ∀ r ∈ calculateDesiredReactions labels false,
        qaGroupReactions.contains r = true := by
    intro r hr
    unfold calculateDesiredReactions at hr
    rw [hmc] at hr
    simp only [Bool.or_false] at hr
    rw [if_neg Bool.false_ne_true] at hr
    simp only [hany, if_true] at hr
    exact List.of_mem_filter hr
  refine ⟨List.all_eq_true.mpr hres, ?_, ?_, ?_⟩ <;>
    · intro hmem
      have := hres _ hmem
      revert this
      decide

/-- Witness for C6: with QA running and an approved status label present,
only the QA reaction survives. -/
theorem desiredReactions_qa_only_witness :
    ("status:merged" ∉ (["qa:running", "status:approved"] : List String)) ∧
    ((calculateDesiredReactions ["qa:running", "status:approved"] false).all
        (fun r => qaGroupReactions.contains r) = true) :=
  ⟨by decide,
   (desiredReactions_qa_only ["qa:running", "status:approved"]
      (by decide) (Or.inl (by decide))).1⟩

/-- Claim C7: for review events, the QA status read back from labels
follows the fixed precedence success > failed > running > pending, with
`"pending"` as the default when no QA label is present. -/
theorem determineQAStatusReview_precedence (labels : List String) :
    ("qa:success" ∈ labels →
       determineQAStatusReview labels = "success") ∧
    ("qa:success" ∉ labels → "qa:failed" ∈ labels →
       determineQAStatusReview labels = "failed") ∧
    ("qa:success" ∉ labels → "qa:failed" ∉ labels → "qa:running" ∈ labels →
       determineQAStatusReview labels = "running") ∧
    ("qa:success" ∉ labels → "qa:failed" ∉ labels → "qa:running" ∉ labels →
       "qa:pending" ∈ labels → determineQAStatusReview labels = "pending") ∧
    ("qa:success" ∉ labels → "qa:failed" ∉ labels → "qa:running" ∉ labels →
       "qa:pending" ∉ labels → determineQAStatusReview labels = "pending") := by
  unfold determineQAStatusReview
  refine ⟨?_, ?_, ?_, ?_, ?_⟩ <;>
    intros <;>
    simp_all [List.elem_iff]

/-- Witness for C7: with both `qa:failed` and `qa:running` present, the
precedence picks `failed`. -/
theorem determineQAStatusReview_precedence_witness :
    ("qa:success" ∉ (["qa:failed", "qa:running"] : List String)) ∧
    determineQAStatusReview ["qa:failed", "qa:running"] = "failed" :=
  ⟨by decide,
   (determineQAStatusReview_precedence ["qa:failed", "qa:running"]).2.1
     (by decide) (by decide)⟩

/-- Claim C9: `checkApproval` is true iff some review is `APPROVED` by an
author other than the PR author; in particular a solo self-approval
yields false. -/
theorem checkApproval_iff (prAuthor : String) (reviews : List Review) :
    (checkApproval prAuthor reviews = true ↔
       ∃ r ∈ reviews, r.state = "APPROVED" ∧ r.userLogin ≠ prAuthor) ∧
    checkApproval prAuthor [⟨"APPROVED", prAuthor⟩] = false := by
  constructor
  · unfold checkApproval
    rw [decide_eq_true_eq, List.length_pos_iff_exists_mem]
    constructor
    · rintro ⟨r, hr⟩
      obtain ⟨hmem, hp⟩ := List.mem_filter.mp hr
      rw [Bool.and_eq_true, beq_iff_eq, bne_iff_ne] at hp
      exact ⟨r, hmem, hp⟩
    · rintro ⟨r, hmem, hs, hu⟩
      exact ⟨r, List.mem_filter.mpr
        ⟨hmem, by rw [Bool.and_eq_true, beq_iff_eq, bne_iff_ne]; exact ⟨hs, hu⟩⟩⟩
  · simp [checkApproval]

/-- Claim C10: `manageAutoMerge` never raises — every error thrown by the
PR fetch or the auto-merge mutation is caught and mapped to a normal
(logged) return, and an error containing `already enabled` is classified
as the informational already-enabled case. -/
theorem manageAutoMerge_never_raises :
    (∀ prAuthorType hasApproval qaStatus isDraft fetchPR enableMutation,
       (manageAutoMerge prAuthorType hasApproval qaStatus isDraft fetchPR
          enableMutation).isOk = true) ∧
    manageAutoMerge "User" true "success" false (.ok ())
        (.error "Auto-merge is already enabled for this pull request")
      = .ok .caughtAlreadyEnabled := by
  constructor
  · intro prAuthorType hasApproval qaStatus isDraft fetchPR enableMutation
    simp only [manageAutoMerge]
    by_cases hbot : (prAuthorType == "Bot") = true
    · rw [if_pos hbot]
      rfl
    · rw [if_neg hbot]
      by_cases hm : (hasApproval && qaStatus == "success" && !isDraft) = true
      · rw [if_pos hm]
        cases fetchPR with
        | error msg => rfl
        | ok u =>
          cases enableMutation with
          | error msg => rfl
          | ok u2 => rfl
      · rw [if_neg hm]
        rfl
  · rfl

end SharedActions
